import Mathlib

/-!
Verification of the `evo_scholar.py` research-agent script.

The program text is shallowly embedded: Python strings become `List Char`,
pure string functions become Lean functions, and the two network providers
(arXiv search, chat completion) become oracle parameters.  Every outward
action of `run` (provider request, file write, console print) is recorded
in an explicit event trace so that frame and ordering properties can be
stated.
-/

/-- Whitespace class used by Python `str.split()` / `str.strip()` with no
arguments: characters `c` with `c.isspace()` true (ASCII control whitespace,
the C1 separators, and the Unicode space characters). -/
def pyIsSpace (c : Char) : Bool :=
  c.toNat = 9 || c.toNat = 10 || c.toNat = 11 || c.toNat = 12 || c.toNat = 13 ||
  (28 ≤ c.toNat && c.toNat ≤ 32) ||
  c.toNat = 133 || c.toNat = 160 || c.toNat = 5760 ||
  (8192 ≤ c.toNat && c.toNat ≤ 8202) ||
  c.toNat = 8232 || c.toNat = 8233 || c.toNat = 8239 || c.toNat = 8287 ||
  c.toNat = 12288

/-- Helper for `pySplit`: scans the text, accumulating the current token
in reverse. -/
def pySplitAux : List Char → List Char → List (List Char)
  | [], acc => if acc.isEmpty then [] else [acc.reverse]
  | c :: cs, acc =>
    if pyIsSpace c then
      if acc.isEmpty then pySplitAux cs [] else acc.reverse :: pySplitAux cs []
    else pySplitAux cs (c :: acc)

/-- Python `str.split()` with no arguments: split on runs of whitespace,
discarding empty tokens. -/
def pySplit (s : List Char) : List (List Char) := pySplitAux s []

/-- Left part of Python `str.strip()`. -/
def lstripChars (s : List Char) : List Char := s.dropWhile pyIsSpace

/-- Right part of Python `str.strip()`. -/
def rstripChars (s : List Char) : List Char := (s.reverse.dropWhile pyIsSpace).reverse

/-- Python `str.strip()` with no arguments. -/
def pyStrip (s : List Char) : List Char := rstripChars (lstripChars s)

/-- `isPrefList p s` is true when `p` is a prefix of `s`. -/
def isPrefList : List Char → List Char → Bool
  | [], _ => true
  | _ :: _, [] => false
  | p :: ps, s :: ss => p == s && isPrefList ps ss

/-- Python substring membership `pat in s`. -/
def containsSub : List Char → List Char → Bool
  | [], pat => isPrefList pat []
  | c :: rest, pat => isPrefList pat (c :: rest) || containsSub rest pat

/-- Python `sep.join(xs)`. -/
def joinSep (sep : List Char) : List (List Char) → List Char
  | [] => []
  | [x] => x
  | x :: y :: rest => x ++ sep ++ joinSep sep (y :: rest)

/- String constants of the program, as character lists. -/

def bt3 : List Char := "```".data
def pythonNl : List Char := "python\n".data
def nlOne : List Char := "\n".data
def nl3 : List Char := "\n```".data
def openFence : List Char := "\n```python\n".data
def closeFence : List Char := "\n```\n".data

def sTitleC : List Char := "Title:".data
def sAbstractC : List Char := "Abstract:".data
def sIntroC : List Char := "Introduction:".data
def sMethodC : List Char := "Proposed Method:".data
def sConclC : List Char := "Conclusion:".data

/-- The `required_sections` list of `evaluate_paper`, in source order. -/
def requiredSections : List (List Char) :=
  [sTitleC, sAbstractC, sIntroC, sMethodC, sConclC]

def tooLongPre : List Char := "Paper is too long by ".data
def tooLongSuf : List Char := " words. ".data
def missingPre : List Char := "Missing sections: ".data
def missingSuf : List Char := ". ".data
def commaSep : List Char := ", ".data
def successPre : List Char := "Success! Paper length is ".data
def successSuf : List Char := " words.".data
def sSuccessTok : List Char := "Success!".data
def wordsDot : List Char := " words.".data

/- ------------------------------------------------------------------ -/
/- The regex `re.search(r"```(?:python)?\n(.*?)\n```", text, re.DOTALL)` -/
/- ------------------------------------------------------------------ -/

/-- The lazy group `(.*?)` followed by the closing `\n```` fence: returns the
shortest body `b` such that the input starts with `b ++ "\n```"`. -/
def lazyBody : List Char → Option (List Char)
  | [] => none
  | c :: rest =>
    if c == '\n' && isPrefList bt3 rest then some []
    else (lazyBody rest).map (fun b => c :: b)

/-- One attempt of the pattern anchored at the start of `s`: the opening
fence ```` ``` ````, the greedy optional `python` tag, a newline, then the
lazy body.  Mirrors the regex engine's backtracking: if `python` is present
it must be followed by the newline, otherwise the newline must be immediate. -/
def matchFenceAt (s : List Char) : Option (List Char) :=
  if isPrefList bt3 s then
    let rest := s.drop bt3.length
    if isPrefList pythonNl rest then lazyBody (rest.drop pythonNl.length)
    else if isPrefList nlOne rest then lazyBody (rest.drop nlOne.length)
    else none
  else none

/-- `re.search`: try the pattern at each position, left to right, returning
the first captured group. -/
def searchFence : List Char → Option (List Char)
  | [] => none
  | c :: rest =>
    match matchFenceAt (c :: rest) with
    | some b => some b
    | none => searchFence rest

/-- `SelfImprovingResearchAgent.extract_text`. -/
def extract_text (text : List Char) : List Char :=
  match searchFence text with
  | some body => pyStrip body
  | none => pyStrip text

/- ------------------------------------------------------------------ -/
/- The agent                                                           -/
/- ------------------------------------------------------------------ -/

/-- Construction-time configuration of `SelfImprovingResearchAgent`. -/
structure Agent where
  model : List Char
  iterations : Nat
  test_mode : Bool
deriving DecidableEq

/-- One entry of the `messages` list sent to the chat-completion provider. -/
structure ChatMessage where
  role : List Char
  content : List Char
deriving DecidableEq

/-- One raw result from the arXiv search provider, before `fetch_latest_papers`
reshapes it. -/
structure ArxivResult where
  title : List Char
  summary : List Char
  entry_id : List Char

/-- The `{title, abstract, link}` dictionaries built by `fetch_latest_papers`. -/
structure PaperSummary where
  title : List Char
  abstract : List Char
  link : List Char

/-- Outward-visible actions of the program: outbound provider requests,
writes of the output file, and console prints. -/
inductive Event where
  | searchCall (query : List Char) (max_results : Nat)
  | llmCall (messages : List ChatMessage)
  | fileWrite (name : List Char) (content : List Char)
  | consolePrint (line : List Char)
deriving DecidableEq

/-- The canned paper returned by `generate_paper` in test mode. -/
def dummyPaper : List Char :=
  ("Title: Dummy Research Paper\n" ++
   "Abstract: This is a dummy abstract for testing purposes.\n" ++
   "Introduction: An introduction to the dummy paper.\n" ++
   "Proposed Method: A dummy method is proposed.\n" ++
   "Conclusion: The paper concludes with dummy insights.").data

def sysRole : List Char := "system".data
def sysContent : List Char := "You are an AI research paper generator.".data
def userRole : List Char := "user".data

/-- `SelfImprovingResearchAgent.generate_paper`.  The chat-completion
provider is the oracle `llm`, mapping the messages list to the first
choice's content.  Returns the result paired with the provider requests
performed. -/
def generate_paper (a : Agent) (llm : List ChatMessage → List Char)
    (prompt : List Char) : List Char × List Event :=
  if a.test_mode then (dummyPaper, [])
  else
    let msgs := [ChatMessage.mk sysRole sysContent, ChatMessage.mk userRole prompt]
    (extract_text (llm msgs), [Event.llmCall msgs])

/-- `SelfImprovingResearchAgent.evaluate_paper`. -/
def evaluate_paper (paper_text : List Char) (max_words : Int) : List Char :=
  let word_count : Nat := (pySplit paper_text).length
  let feedback1 : List Char :=
    if (word_count : Int) > max_words then
      tooLongPre ++ ((Int.repr ((word_count : Int) - max_words)).data) ++ tooLongSuf
    else []
  let missing_sections := requiredSections.filter (fun sec => !(containsSub paper_text sec))
  let feedback2 :=
    if missing_sections = [] then feedback1
    else feedback1 ++ missingPre ++ joinSep commaSep missing_sections ++ missingSuf
  let feedback3 :=
    if feedback2 = [] then successPre ++ ((Nat.repr word_count).data) ++ successSuf
    else feedback2
  pyStrip feedback3

def refinePre : List Char := "Refine the following research paper based on this feedback:\n".data
def refineMid : List Char := "\n\nPaper:\n".data
def refineSuf : List Char :=
  ("\n\n" ++
   "Ensure the paper is concise (under 500 words), introduces a novel interdisciplinary concept " ++
   "by blending ideas from different STEM fields, and includes the sections: Title, Abstract, " ++
   "Introduction, Proposed Method, and Conclusion.").data

/-- `SelfImprovingResearchAgent.refine_paper`: builds the refinement prompt
and delegates to `generate_paper`. -/
def refine_paper (a : Agent) (llm : List ChatMessage → List Char)
    (paper_text feedback : List Char) : List Char × List Event :=
  generate_paper a llm
    (refinePre ++ feedback ++ refineMid ++ paper_text ++ refineSuf)

def defaultQuery : List Char := "interdisciplinary research AI biology physics".data

/-- Python `summary.replace("\n", " ")`: the pattern and replacement are
single characters, so the replacement is a character map. -/
def replaceNlSpace (s : List Char) : List Char :=
  s.map (fun c => if c = '\n' then ' ' else c)

/-- `SelfImprovingResearchAgent.fetch_latest_papers`.  The search provider
is the oracle `searchO`.  Note the source performs the search request
unconditionally: there is no `test_mode` branch in this method. -/
def fetch_latest_papers (a : Agent) (searchO : List Char → Nat → List ArxivResult)
    (max_results : Nat) (query : List Char) : List PaperSummary × List Event :=
  ((searchO query max_results).map
      (fun r => PaperSummary.mk r.title (replaceNlSpace r.summary) r.entry_id),
   [Event.searchCall query max_results])

def sumTitlePre : List Char := "Title: ".data
def sumAbsPre : List Char := "\nAbstract: ".data
def basePre : List Char :=
  "Generate a new interdisciplinary research paper inspired by the following arXiv paper summaries:\n".data
def baseSuf : List Char :=
  ("\n\n" ++
   "Your paper should be concise (under 500 words) and include the sections: Title, Abstract, " ++
   "Introduction, Proposed Method, and Conclusion. Propose a novel concept by blending ideas from different STEM fields.").data

/-- The `paper_summaries` string built inside `run`. -/
def summariesOf (papers : List PaperSummary) : List Char :=
  joinSep nlOne (papers.map (fun p => sumTitlePre ++ p.title ++ sumAbsPre ++ p.abstract))

/-- The `base_prompt` string built inside `run`. -/
def basePromptOf (paper_summaries : List Char) : List Char :=
  basePre ++ paper_summaries ++ baseSuf

def file_name : List Char := "generated_paper.txt".data
def iterPre : List Char := "Iteration ".data
def iterMid : List Char := " feedback: ".data
def finalHeader : List Char := "\nFinal Version of the Paper:".data

/-- The `for i in range(self.iterations)` loop of `run`: each pass writes the
current draft, evaluates it, prints the feedback line, and refines.  `i` is
the zero-based index of the next pass; returns the final draft and the trace
of the remaining passes. -/
def runLoop (a : Agent) (llm : List ChatMessage → List Char) :
    Nat → Nat → List Char → List Char × List Event
  | 0, _, paper_text => (paper_text, [])
  | Nat.succ n, i, paper_text =>
    let feedback := evaluate_paper paper_text 500
    let ref := refine_paper a llm paper_text feedback
    let rest := runLoop a llm n (i + 1) ref.fst
    (rest.fst,
     Event.fileWrite file_name paper_text ::
       Event.consolePrint (iterPre ++ ((Nat.repr (i + 1)).data) ++ iterMid ++ feedback) ::
       (ref.snd ++ rest.snd))

/-- `SelfImprovingResearchAgent.run`: fetch, initial generation, refinement
loop, final prints and final write.  Returns the final draft and the full
event trace. -/
def run (a : Agent) (searchO : List Char → Nat → List ArxivResult)
    (llm : List ChatMessage → List Char) : List Char × List Event :=
  let fetched := fetch_latest_papers a searchO 5 defaultQuery
  let gen := generate_paper a llm (basePromptOf (summariesOf fetched.fst))
  let lp := runLoop a llm a.iterations 0 gen.fst
  (lp.fst,
   fetched.snd ++ gen.snd ++ lp.snd ++
     [Event.consolePrint finalHeader, Event.consolePrint lp.fst,
      Event.fileWrite file_name lp.fst])

/-- Content of the last `fileWrite` event of a trace, if any: the final
content of the output file. -/
def lastWrite : List Event → Option (List Char)
  | [] => none
  | Event.fileWrite _ c :: rest => some ((lastWrite rest).getD c)
  | _ :: rest => lastWrite rest

/-- Number of events of a trace satisfying `p`. -/
def countP (p : Event → Bool) (l : List Event) : Nat := (l.filter p).length

def isWriteEv : Event → Bool
  | Event.fileWrite _ _ => true
  | _ => false

def isLlmEv : Event → Bool
  | Event.llmCall _ => true
  | _ => false

def isPrintEv : Event → Bool
  | Event.consolePrint _ => true
  | _ => false

/-- The sequence of drafts produced from a starting draft `t` by repeated
evaluate-and-refine steps, as performed by the loop of `run`. -/
def draftFrom (a : Agent) (llm : List ChatMessage → List Char) (t : List Char) :
    Nat → List Char
  | 0 => t
  | j + 1 =>
    (refine_paper a llm (draftFrom a llm t j)
        (evaluate_paper (draftFrom a llm t j) 500)).fst

/-- The initial draft computed by `run` before the loop. -/
def initialDraft (a : Agent) (searchO : List Char → Nat → List ArxivResult)
    (llm : List ChatMessage → List Char) : List Char :=
  (generate_paper a llm
      (basePromptOf (summariesOf (fetch_latest_papers a searchO 5 defaultQuery).fst))).fst

/-- The draft held by `run` at the start of loop pass `i` (zero-based). -/
def runDraft (a : Agent) (searchO : List Char → Nat → List ArxivResult)
    (llm : List ChatMessage → List Char) (i : Nat) : List Char :=
  draftFrom a llm (initialDraft a searchO llm) i

/- ------------------------------------------------------------------ -/
/- Prefix and substring lemmas                                         -/
/- ------------------------------------------------------------------ -/

theorem isPrefList_refl (l : List Char) : isPrefList l l = true := by
  induction l with
  | nil => rfl
  | cons c t ih => simp [isPrefList, ih]

theorem isPrefList_append {p s : List Char} (t : List Char)
    (h : isPrefList p s = true) : isPrefList p (s ++ t) = true := by
  induction p generalizing s with
  | nil => rfl
  | cons a ps ih =>
    cases s with
    | nil => simp [isPrefList] at h
    | cons b ss =>
      simp only [isPrefList, Bool.and_eq_true, beq_iff_eq] at h
      simp only [List.cons_append, isPrefList, Bool.and_eq_true, beq_iff_eq]
      exact ⟨h.1, ih h.2⟩

theorem isPrefList_self_append (p t : List Char) : isPrefList p (p ++ t) = true :=
  isPrefList_append t (isPrefList_refl p)

theorem containsSub_of_pref {s p : List Char} (h : isPrefList p s = true) :
    containsSub s p = true := by
  cases s with
  | nil => simpa [containsSub] using h
  | cons c r => simp [containsSub, h]

theorem containsSub_cons (c : Char) (r p : List Char) (h : containsSub r p = true) :
    containsSub (c :: r) p = true := by
  simp [containsSub, h]

theorem containsSub_append_left {s p : List Char} (a : List Char)
    (h : containsSub s p = true) : containsSub (a ++ s) p = true := by
  induction a with
  | nil => simpa
  | cons c a' ih =>
    rw [List.cons_append]
    exact containsSub_cons _ _ _ ih

theorem containsSub_append_right {s p : List Char} (t : List Char)
    (h : containsSub s p = true) : containsSub (s ++ t) p = true := by
  induction s with
  | nil =>
    cases p with
    | nil =>
      cases t with
      | nil => rfl
      | cons c r => simp [containsSub, isPrefList]
    | cons a ps => simp [containsSub, isPrefList] at h
  | cons c s' ih =>
    rw [List.cons_append]
    rcases (by simpa [containsSub] using h :
        isPrefList p (c :: s') = true ∨ containsSub s' p = true) with h1 | h2
    · refine containsSub_of_pref ?_
      rw [← List.cons_append]
      exact isPrefList_append t h1
    · exact containsSub_cons _ _ _ (ih h2)

/- ------------------------------------------------------------------ -/
/- Strip lemmas                                                        -/
/- ------------------------------------------------------------------ -/

theorem dropWhile_idem (p : Char → Bool) (l : List Char) :
    List.dropWhile p (List.dropWhile p l) = List.dropWhile p l := by
  induction l with
  | nil => rfl
  | cons c t ih =>
    rw [List.dropWhile_cons]
    split
    · exact ih
    · next h => rw [List.dropWhile_cons, if_neg h]

theorem lstrip_cons_of_false (c : Char) (X : List Char) (h : pyIsSpace c = false) :
    lstripChars (c :: X) = c :: X := by
  simp [lstripChars, List.dropWhile_cons, h]

theorem rstrip_append_true (X : List Char) (c : Char) (h : pyIsSpace c = true) :
    rstripChars (X ++ [c]) = rstripChars X := by
  simp [rstripChars, List.reverse_append, List.dropWhile_cons, h]

theorem rstrip_append_false (X : List Char) (c : Char) (h : pyIsSpace c = false) :
    rstripChars (X ++ [c]) = X ++ [c] := by
  simp [rstripChars, List.reverse_append, List.dropWhile_cons, h]

theorem pyStrip_cons_of_false (c : Char) (X : List Char) (h : pyIsSpace c = false) :
    pyStrip (c :: X) = rstripChars (c :: X) := by
  rw [pyStrip, lstrip_cons_of_false c X h]

theorem lstrip_idem (s : List Char) : lstripChars (lstripChars s) = lstripChars s :=
  dropWhile_idem pyIsSpace s

theorem rstrip_idem (s : List Char) : rstripChars (rstripChars s) = rstripChars s := by
  unfold rstripChars
  rw [List.reverse_reverse, dropWhile_idem]

theorem lstrip_decomp (s : List Char) : ∃ u, s = u ++ lstripChars s :=
  ⟨s.takeWhile pyIsSpace, (List.takeWhile_append_dropWhile _ _).symm⟩

theorem rstrip_decomp (s : List Char) : ∃ v, s = rstripChars s ++ v := by
  refine ⟨(s.reverse.takeWhile pyIsSpace).reverse, ?_⟩
  have h2 := congrArg List.reverse (List.takeWhile_append_dropWhile pyIsSpace s.reverse)
  rw [List.reverse_append, List.reverse_reverse] at h2
  unfold rstripChars
  exact h2.symm

theorem pyStrip_decomp (s : List Char) : ∃ u v, s = u ++ pyStrip s ++ v := by
  obtain ⟨u, hu⟩ := lstrip_decomp s
  obtain ⟨v, hv⟩ := rstrip_decomp (lstripChars s)
  refine ⟨u, v, ?_⟩
  conv_lhs => rw [hu, hv]
  rw [pyStrip, List.append_assoc]

theorem lstrip_head (s : List Char) :
    lstripChars s = [] ∨ ∃ c X, lstripChars s = c :: X ∧ pyIsSpace c = false := by
  induction s with
  | nil => exact Or.inl rfl
  | cons c t ih =>
    unfold lstripChars at ih ⊢
    rw [List.dropWhile_cons]
    split
    · exact ih
    · next h => exact Or.inr ⟨c, t, rfl, by simpa using h⟩

theorem pyStrip_idem (s : List Char) : pyStrip (pyStrip s) = pyStrip s := by
  rcases lstrip_head s with h | ⟨c, X, h, hc⟩
  · have hz : pyStrip s = [] := by rw [pyStrip, h]; rfl
    rw [hz]; rfl
  · have hps : pyStrip s = rstripChars (c :: X) := by rw [pyStrip, h]
    obtain ⟨v, hv⟩ := rstrip_decomp (c :: X)
    cases hr : rstripChars (c :: X) with
    | nil => rw [hps, hr]; rfl
    | cons d Y =>
      rw [hr] at hv
      have hd : c = d := by
        rw [List.cons_append] at hv
        exact (List.cons.injEq _ _ _ _ ▸ hv).1
      rw [hps, hr, pyStrip, lstrip_cons_of_false d Y (hd ▸ hc), ← hr, rstrip_idem]

/- ------------------------------------------------------------------ -/
/- Shape lemmas for the feedback strings of evaluate_paper             -/
/- ------------------------------------------------------------------ -/

theorem successPre_cons : successPre = 'S' :: (("uccess! Paper length is ").data) := by decide

theorem tooLongPre_cons : tooLongPre = 'P' :: (("aper is too long by ").data) := by decide

theorem missingPre_cons : missingPre = 'M' :: (("issing sections: ").data) := by decide

theorem successSuf_split : successSuf = ((" words").data) ++ ['.'] := by decide

theorem tooLongSuf_split : tooLongSuf = ((" words").data) ++ ['.', ' '] := by decide

theorem tooLongSuf_split2 : tooLongSuf = wordsDot ++ [' '] := by decide

theorem missingSuf_split : missingSuf = ['.', ' '] := by decide

theorem wordsDot_split : wordsDot = ((" words").data) ++ ['.'] := by decide

/-- Stripping a string that starts with a non-space character, ends with a
non-space character, and then has one trailing blank, removes exactly the
blank. -/
theorem pyStrip_core (c : Char) (m : List Char) (d : Char)
    (hc : pyIsSpace c = false) (hd : pyIsSpace d = false) :
    pyStrip (c :: (m ++ [d, ' '])) = c :: (m ++ [d]) := by
  rw [pyStrip_cons_of_false c _ hc]
  have h1 : c :: (m ++ [d, ' ']) = ((c :: m) ++ [d]) ++ [' '] := by simp
  rw [h1, rstrip_append_true _ ' ' (by decide), rstrip_append_false _ d hd]
  simp

/-- Stripping a string that starts and ends with non-space characters is the
identity. -/
theorem pyStrip_core2 (c : Char) (m : List Char) (d : Char)
    (hc : pyIsSpace c = false) (hd : pyIsSpace d = false) :
    pyStrip (c :: (m ++ [d])) = c :: (m ++ [d]) := by
  rw [pyStrip_cons_of_false c _ hc]
  have h1 : c :: (m ++ [d]) = (c :: m) ++ [d] := by simp
  rw [h1, rstrip_append_false _ d hd]

/- ------------------------------------------------------------------ -/
/- Claims C2, C4, C5, C6: evaluate_paper                               -/
/- ------------------------------------------------------------------ -/

/-- Claim C2, counterexample: on the exact text
`"Title: A\nAbstract: B\nIntroduction: C\nProposed Method: D\nConclusion: E"`
with `max_words = 500`, `evaluate_paper` does not return
`"Success! Paper length is 10 words."`: the text has 11 whitespace-delimited
tokens (`Proposed Method:` contributes two), so the claimed string is wrong. -/
theorem C2_counterexample :
    evaluate_paper (("Title: A\nAbstract: B\nIntroduction: C\nProposed Method: D\nConclusion: E").data) 500
      ≠ (("Success! Paper length is 10 words.").data) := by decide

/-- Claim C2, amended: on that exact text with `max_words = 500`,
`evaluate_paper` returns exactly `"Success! Paper length is 11 words."`,
the word count being the number of whitespace-delimited tokens (11). -/
theorem C2_amended :
    evaluate_paper (("Title: A\nAbstract: B\nIntroduction: C\nProposed Method: D\nConclusion: E").data) 500
      = (("Success! Paper length is 11 words.").data) := by decide

/-- Claim C4: for every text and integer word ceiling, if the whitespace
word count is within the ceiling and all five required markers occur in the
text as substrings, `evaluate_paper` returns a string containing
`"Success!"`. -/
theorem C4_success (t : List Char) (mw : Int)
    (hwc : ((pySplit t).length : Int) ≤ mw)
    (hsec : ∀ sec ∈ requiredSections, containsSub t sec = true) :
    containsSub (evaluate_paper t mw) sSuccessTok = true := by
  have hw : ¬ (((pySplit t).length : Int) > mw) := not_lt.mpr hwc
  have hm : requiredSections.filter (fun sec => !(containsSub t sec)) = [] := by
    rw [List.filter_eq_nil_iff]
    intro a ha
    simp [hsec a ha]
  simp only [evaluate_paper]
  rw [if_neg hw, hm, if_pos rfl, if_pos rfl]
  generalize (Nat.repr (pySplit t).length).data = D
  have hshape : successPre ++ D ++ successSuf
      = 'S' :: (((("uccess! Paper length is ").data) ++ D ++ ((" words").data)) ++ ['.']) := by
    rw [successPre_cons, successSuf_split]; simp
  rw [hshape, pyStrip_core2 'S' _ '.' (by decide) (by decide), ← hshape]
  refine containsSub_of_pref ?_
  have h2 : successPre ++ D ++ successSuf = successPre ++ (D ++ successSuf) := by simp
  rw [h2]
  exact isPrefList_append _ (by decide)

/-- Claim C4, witness: the five-section scenario text at ceiling 500. -/
theorem C4_success_witness :
    containsSub
      (evaluate_paper (("Title: A\nAbstract: B\nIntroduction: C\nProposed Method: D\nConclusion: E").data) 500)
      sSuccessTok = true :=
  C4_success _ _ (by decide) (by decide)

/-- Claim C5: whenever at least one required marker is missing from the text,
the feedback contains `"Missing sections: "` followed by exactly the missing
markers, comma-joined in the fixed canonical order of `required_sections`,
and a closing period. -/
theorem C5_missing_sections (t : List Char) (mw : Int)
    (hm : requiredSections.filter (fun sec => !(containsSub t sec)) ≠ []) :
    containsSub (evaluate_paper t mw)
      (missingPre ++
        joinSep commaSep (requiredSections.filter (fun sec => !(containsSub t sec))) ++
        ['.']) = true := by
  have hms : missingSuf ≠ [] := by decide
  by_cases hw : ((pySplit t).length : Int) > mw
  · simp only [evaluate_paper]
    rw [if_pos hw, if_neg hm, if_neg (List.append_ne_nil_of_right_ne_nil _ hms)]
    generalize (Int.repr (((pySplit t).length : Int) - mw)).data = D
    generalize joinSep commaSep (requiredSections.filter (fun sec => !(containsSub t sec))) = J
    have hshape : tooLongPre ++ D ++ tooLongSuf ++ missingPre ++ J ++ missingSuf
        = 'P' :: (((("aper is too long by ").data) ++ D ++ tooLongSuf ++ missingPre ++ J) ++ ['.', ' ']) := by
      rw [tooLongPre_cons, missingSuf_split]; simp
    rw [hshape, pyStrip_core 'P' _ '.' (by decide) (by decide)]
    have hshape2 : 'P' :: (((("aper is too long by ").data) ++ D ++ tooLongSuf ++ missingPre ++ J) ++ ['.'])
        = (tooLongPre ++ D ++ tooLongSuf) ++ (missingPre ++ J ++ ['.']) := by
      rw [tooLongPre_cons]; simp
    rw [hshape2]
    exact containsSub_append_left _ (containsSub_of_pref (isPrefList_refl _))
  · simp only [evaluate_paper]
    rw [if_neg hw, if_neg hm, if_neg (List.append_ne_nil_of_right_ne_nil _ hms)]
    generalize joinSep commaSep (requiredSections.filter (fun sec => !(containsSub t sec))) = J
    have hshape : ([] : List Char) ++ missingPre ++ J ++ missingSuf
        = 'M' :: (((("issing sections: ").data) ++ J) ++ ['.', ' ']) := by
      rw [missingPre_cons, missingSuf_split]; simp
    rw [hshape, pyStrip_core 'M' _ '.' (by decide) (by decide)]
    have hshape2 : 'M' :: (((("issing sections: ").data) ++ J) ++ ['.'])
        = missingPre ++ J ++ ['.'] := by
      rw [missingPre_cons]; simp
    rw [hshape2]
    exact containsSub_of_pref (isPrefList_refl _)

/-- Claim C5, witness: the two-section scenario text at ceiling 500. -/
theorem C5_missing_sections_witness :
    containsSub (evaluate_paper (("Title: A\nAbstract: B").data) 500)
      (missingPre ++
        joinSep commaSep
          (requiredSections.filter (fun sec => !(containsSub (("Title: A\nAbstract: B").data) sec))) ++
        ['.']) = true :=
  C5_missing_sections _ 500 (by decide)

/-- Claim C6: whenever the whitespace word count exceeds the ceiling, the
feedback contains `"Paper is too long by {word_count - max_words} words."`
with the exact overflow amount. -/
theorem C6_too_long (t : List Char) (mw : Int)
    (h : ((pySplit t).length : Int) > mw) :
    containsSub (evaluate_paper t mw)
      (tooLongPre ++ ((Int.repr (((pySplit t).length : Int) - mw)).data) ++ wordsDot) = true := by
  by_cases hm : requiredSections.filter (fun sec => !(containsSub t sec)) = []
  · simp only [evaluate_paper]
    rw [if_pos h, hm, if_pos rfl,
      if_neg (List.append_ne_nil_of_right_ne_nil _ (by decide : tooLongSuf ≠ []))]
    generalize (Int.repr (((pySplit t).length : Int) - mw)).data = D
    have hshape : tooLongPre ++ D ++ tooLongSuf
        = 'P' :: (((("aper is too long by ").data) ++ D ++ ((" words").data)) ++ ['.', ' ']) := by
      rw [tooLongPre_cons, tooLongSuf_split]; simp
    rw [hshape, pyStrip_core 'P' _ '.' (by decide) (by decide)]
    have hshape2 : 'P' :: (((("aper is too long by ").data) ++ D ++ ((" words").data)) ++ ['.'])
        = tooLongPre ++ D ++ wordsDot := by
      rw [tooLongPre_cons, wordsDot_split]; simp
    rw [hshape2]
    exact containsSub_of_pref (isPrefList_refl _)
  · simp only [evaluate_paper]
    rw [if_pos h, if_neg hm,
      if_neg (List.append_ne_nil_of_right_ne_nil _ (by decide : missingSuf ≠ []))]
    generalize (Int.repr (((pySplit t).length : Int) - mw)).data = D
    generalize joinSep commaSep (requiredSections.filter (fun sec => !(containsSub t sec))) = J
    have hshape : tooLongPre ++ D ++ tooLongSuf ++ missingPre ++ J ++ missingSuf
        = 'P' :: (((("aper is too long by ").data) ++ D ++ tooLongSuf ++ missingPre ++ J) ++ ['.', ' ']) := by
      rw [tooLongPre_cons, missingSuf_split]; simp
    rw [hshape, pyStrip_core 'P' _ '.' (by decide) (by decide)]
    have hshape2 : 'P' :: (((("aper is too long by ").data) ++ D ++ tooLongSuf ++ missingPre ++ J) ++ ['.'])
        = (tooLongPre ++ D ++ wordsDot) ++ ((' ' :: missingPre) ++ J ++ ['.']) := by
      rw [tooLongPre_cons, tooLongSuf_split2]; simp
    rw [hshape2]
    exact containsSub_of_pref (isPrefList_self_append _ _)

/-- Claim C6, witness: a three-word text at ceiling 1 overflows by 2. -/
theorem C6_too_long_witness :
    containsSub (evaluate_paper (("a b c").data) 1)
      (tooLongPre ++ ((Int.repr (((pySplit (("a b c").data)).length : Int) - 1)).data) ++ wordsDot) = true :=
  C6_too_long _ 1 (by decide)

/- ------------------------------------------------------------------ -/
/- Unfolding and counting lemmas for the run loop                      -/
/- ------------------------------------------------------------------ -/

theorem runLoop_zero (a : Agent) (llm : List ChatMessage → List Char) (i : Nat)
    (t : List Char) : runLoop a llm 0 i t = (t, []) := rfl

theorem runLoop_succ (a : Agent) (llm : List ChatMessage → List Char) (n i : Nat)
    (t : List Char) :
    runLoop a llm (n + 1) i t =
      ((runLoop a llm n (i + 1) (refine_paper a llm t (evaluate_paper t 500)).fst).fst,
       Event.fileWrite file_name t ::
         Event.consolePrint (iterPre ++ ((Nat.repr (i + 1)).data) ++ iterMid ++ evaluate_paper t 500) ::
         ((refine_paper a llm t (evaluate_paper t 500)).snd ++
           (runLoop a llm n (i + 1) (refine_paper a llm t (evaluate_paper t 500)).fst).snd)) := rfl

theorem refine_snd (a : Agent) (llm : List ChatMessage → List Char) (t fb : List Char) :
    (refine_paper a llm t fb).snd =
      (generate_paper a llm (refinePre ++ fb ++ refineMid ++ t ++ refineSuf)).snd := rfl

theorem countP_nil (p : Event → Bool) : countP p [] = 0 := rfl

theorem countP_cons (p : Event → Bool) (e : Event) (l : List Event) :
    countP p (e :: l) = (if p e then 1 else 0) + countP p l := by
  simp only [countP, List.filter_cons]
  split
  · simp [Nat.add_comm]
  · simp

theorem countP_append (p : Event → Bool) (l1 l2 : List Event) :
    countP p (l1 ++ l2) = countP p l1 + countP p l2 := by
  simp [countP, List.filter_append]

theorem generate_snd_write (a : Agent) (llm : List ChatMessage → List Char)
    (pr : List Char) : countP isWriteEv (generate_paper a llm pr).snd = 0 := by
  cases h : a.test_mode <;> simp [generate_paper, h, countP, isWriteEv]

theorem generate_snd_print (a : Agent) (llm : List ChatMessage → List Char)
    (pr : List Char) : countP isPrintEv (generate_paper a llm pr).snd = 0 := by
  cases h : a.test_mode <;> simp [generate_paper, h, countP, isPrintEv]

theorem generate_snd_llm (a : Agent) (llm : List ChatMessage → List Char)
    (pr : List Char) (h : a.test_mode = false) :
    countP isLlmEv (generate_paper a llm pr).snd = 1 := by
  simp [generate_paper, h, countP, isLlmEv]

theorem runLoop_count_write (a : Agent) (llm : List ChatMessage → List Char) :
    ∀ n i t, countP isWriteEv (runLoop a llm n i t).snd = n := by
  intro n
  induction n with
  | zero => intro i t; rfl
  | succ n ih =>
    intro i t
    rw [runLoop_succ, countP_cons, countP_cons, countP_append, refine_snd,
      generate_snd_write, ih]
    simp [isWriteEv, isPrintEv]
    omega

theorem runLoop_count_print (a : Agent) (llm : List ChatMessage → List Char) :
    ∀ n i t, countP isPrintEv (runLoop a llm n i t).snd = n := by
  intro n
  induction n with
  | zero => intro i t; rfl
  | succ n ih =>
    intro i t
    rw [runLoop_succ, countP_cons, countP_cons, countP_append, refine_snd,
      generate_snd_print, ih]
    simp [isWriteEv, isPrintEv]
    omega

theorem runLoop_count_llm (a : Agent) (llm : List ChatMessage → List Char)
    (h : a.test_mode = false) :
    ∀ n i t, countP isLlmEv (runLoop a llm n i t).snd = n := by
  intro n
  induction n with
  | zero => intro i t; rfl
  | succ n ih =>
    intro i t
    rw [runLoop_succ, countP_cons, countP_cons, countP_append, refine_snd,
      generate_snd_llm a llm _ h, ih]
    simp [isLlmEv]
    omega

/- ------------------------------------------------------------------ -/
/- Claims C1, C3, C8, C9                                               -/
/- ------------------------------------------------------------------ -/

/-- Claim C1 (refuting theorem): with `test_mode = true`, a full `run` still
emits an outbound search-provider request: `fetch_latest_papers` has no
test-mode branch, so the claim that no provider is contacted in test mode is
violated by the code. -/
theorem C1_search_call_in_test_mode :
    Event.searchCall defaultQuery 5 ∈
      (run (Agent.mk (("grok-2-latest").data) 1 true) (fun _ _ => []) (fun _ => [])).snd := by
  decide

/-- Claim C8: in test mode, `generate_paper` returns the fixed canned paper
regardless of the prompt, so any two prompts give identical results. -/
theorem C8_test_mode_constant (a : Agent) (llm : List ChatMessage → List Char)
    (p1 p2 : List Char) (h : a.test_mode = true) :
    (generate_paper a llm p1).fst = dummyPaper ∧
    (generate_paper a llm p1).fst = (generate_paper a llm p2).fst := by
  simp [generate_paper, h]

/-- Claim C8, witness: two distinct concrete prompts in test mode. -/
theorem C8_test_mode_constant_witness :
    (generate_paper (Agent.mk (("grok-2-latest").data) 1 true) (fun _ => []) (("abc").data)).fst
        = dummyPaper ∧
    (generate_paper (Agent.mk (("grok-2-latest").data) 1 true) (fun _ => []) (("abc").data)).fst
        = (generate_paper (Agent.mk (("grok-2-latest").data) 1 true) (fun _ => []) (("xyz").data)).fst :=
  C8_test_mode_constant _ _ _ _ rfl

/-- Claim C3: in test mode with one iteration, `run` terminates with the
final draft equal to the canned generator paper, and the last write of
`generated_paper.txt` stores exactly that text (the refiner also routes
through the generator, which ignores its prompt in test mode). -/
theorem C3_test_run_writes_dummy (a : Agent)
    (searchO : List Char → Nat → List ArxivResult) (llm : List ChatMessage → List Char)
    (h1 : a.test_mode = true) (h2 : a.iterations = 1) :
    (run a searchO llm).fst = dummyPaper ∧
    lastWrite (run a searchO llm).snd = some dummyPaper := by
  have hg : ∀ pr, generate_paper a llm pr = (dummyPaper, []) := by
    intro pr; simp [generate_paper, h1]
  have hloop : runLoop a llm 1 0 dummyPaper = (dummyPaper, [Event.fileWrite file_name dummyPaper,
      Event.consolePrint (iterPre ++ ((Nat.repr 1).data) ++ iterMid ++ evaluate_paper dummyPaper 500)]) := by
    rw [show (1 : Nat) = 0 + 1 from rfl, runLoop_succ, runLoop_zero]
    simp [refine_paper, hg]
  constructor
  · simp [run, h2, hg, hloop]
  · simp [run, h2, hg, hloop, fetch_latest_papers, lastWrite]

/-- Claim C3, witness: a concrete test-mode agent with one iteration. -/
theorem C3_test_run_writes_dummy_witness :
    (run (Agent.mk (("grok-2-latest").data) 1 true) (fun _ _ => []) (fun _ => [])).fst = dummyPaper ∧
    lastWrite (run (Agent.mk (("grok-2-latest").data) 1 true) (fun _ _ => []) (fun _ => [])).snd
      = some dummyPaper :=
  C3_test_run_writes_dummy _ _ _ rfl rfl

/-- Claim C9: the driver loop never exits early: for any configuration the
trace of `run` holds exactly `iterations + 1` file writes and
`iterations + 2` console prints (one feedback line per iteration plus the
two final prints), and in normal mode exactly `iterations + 1` generation
provider calls. -/
theorem C9_fixed_iteration_counts (a : Agent)
    (searchO : List Char → Nat → List ArxivResult) (llm : List ChatMessage → List Char) :
    countP isWriteEv (run a searchO llm).snd = a.iterations + 1 ∧
    countP isPrintEv (run a searchO llm).snd = a.iterations + 2 ∧
    (a.test_mode = false → countP isLlmEv (run a searchO llm).snd = a.iterations + 1) := by
  refine ⟨?_, ?_, fun h => ?_⟩
  · simp only [run, fetch_latest_papers, countP_append, countP_cons, countP_nil,
      generate_snd_write, runLoop_count_write]
    simp [isWriteEv]
  · simp only [run, fetch_latest_papers, countP_append, countP_cons, countP_nil,
      generate_snd_print, runLoop_count_print]
    simp [isPrintEv]
  · simp only [run, fetch_latest_papers, countP_append, countP_cons, countP_nil,
      generate_snd_llm a llm _ h, runLoop_count_llm a llm h]
    simp [isLlmEv]
    omega

/-- Claim C9, witness: a normal-mode agent with two iterations: 3 writes,
4 prints, 3 generation calls. -/
theorem C9_fixed_iteration_counts_witness :
    countP isWriteEv (run (Agent.mk (("m").data) 2 false) (fun _ _ => []) (fun _ => [])).snd = 3 ∧
    countP isPrintEv (run (Agent.mk (("m").data) 2 false) (fun _ _ => []) (fun _ => [])).snd = 4 ∧
    countP isLlmEv (run (Agent.mk (("m").data) 2 false) (fun _ _ => []) (fun _ => [])).snd = 3 :=
  ⟨(C9_fixed_iteration_counts _ _ _).1, (C9_fixed_iteration_counts _ _ _).2.1,
    (C9_fixed_iteration_counts _ _ _).2.2 rfl⟩

/- ------------------------------------------------------------------ -/
/- Claim C10: within each iteration the draft is persisted             -/
/- immediately before its feedback line is printed                     -/
/- ------------------------------------------------------------------ -/

theorem draftFrom_shift (a : Agent) (llm : List ChatMessage → List Char) (t : List Char) :
    ∀ j, draftFrom a llm t (j + 1) =
      draftFrom a llm (refine_paper a llm t (evaluate_paper t 500)).fst j := by
  intro j
  induction j with
  | zero => rfl
  | succ j ih =>
    have hstep : draftFrom a llm t (j + 1 + 1) =
        (refine_paper a llm (draftFrom a llm t (j + 1))
          (evaluate_paper (draftFrom a llm t (j + 1)) 500)).fst := rfl
    rw [hstep, ih]
    rfl

theorem runLoop_block (a : Agent) (llm : List ChatMessage → List Char) :
    ∀ n i0 t j, j < n →
      ∃ u v, (runLoop a llm n i0 t).snd =
        u ++ Event.fileWrite file_name (draftFrom a llm t j) ::
          Event.consolePrint (iterPre ++ ((Nat.repr (i0 + j + 1)).data) ++ iterMid ++
            evaluate_paper (draftFrom a llm t j) 500) :: v := by
  intro n
  induction n with
  | zero => intro i0 t j hj; exact absurd hj (Nat.not_lt_zero j)
  | succ n ih =>
    intro i0 t j hj
    cases j with
    | zero =>
      refine ⟨[], (refine_paper a llm t (evaluate_paper t 500)).snd ++
        (runLoop a llm n (i0 + 1) (refine_paper a llm t (evaluate_paper t 500)).fst).snd, ?_⟩
      rw [runLoop_succ]
      simp [draftFrom]
    | succ j =>
      have hj' : j < n := by omega
      obtain ⟨u, v, hu⟩ :=
        ih (i0 + 1) (refine_paper a llm t (evaluate_paper t 500)).fst j hj'
      refine ⟨Event.fileWrite file_name t ::
        Event.consolePrint (iterPre ++ ((Nat.repr (i0 + 1)).data) ++ iterMid ++
          evaluate_paper t 500) ::
        ((refine_paper a llm t (evaluate_paper t 500)).snd ++ u), v, ?_⟩
      rw [runLoop_succ, hu, draftFrom_shift,
        show i0 + (j + 1) + 1 = i0 + 1 + j + 1 by omega]
      simp [List.append_assoc]

/-- Claim C10: whenever the loop of `run` emits the feedback line of
iteration `i`, the event immediately preceding it in the trace is the write
of `generated_paper.txt` with exactly the draft from which that feedback was
computed: the trace decomposes around the adjacent write/print pair. -/
theorem C10_persist_precedes_feedback (a : Agent)
    (searchO : List Char → Nat → List ArxivResult) (llm : List ChatMessage → List Char)
    (i : Nat) (hi : i < a.iterations) :
    ∃ u v, (run a searchO llm).snd =
      u ++ Event.fileWrite file_name (runDraft a searchO llm i) ::
        Event.consolePrint (iterPre ++ ((Nat.repr (i + 1)).data) ++ iterMid ++
          evaluate_paper (runDraft a searchO llm i) 500) :: v := by
  obtain ⟨u, v, hu⟩ :=
    runLoop_block a llm a.iterations 0 (initialDraft a searchO llm) i hi
  rw [Nat.zero_add] at hu
  refine ⟨(fetch_latest_papers a searchO 5 defaultQuery).snd ++
      (generate_paper a llm
        (basePromptOf (summariesOf (fetch_latest_papers a searchO 5 defaultQuery).fst))).snd ++ u,
    v ++ [Event.consolePrint finalHeader,
      Event.consolePrint (runLoop a llm a.iterations 0 (initialDraft a searchO llm)).fst,
      Event.fileWrite file_name (runLoop a llm a.iterations 0 (initialDraft a searchO llm)).fst],
    ?_⟩
  simp only [run, runDraft]
  simp only [initialDraft] at hu ⊢
  rw [hu]
  simp [List.append_assoc]

/-- Claim C10, witness: the single iteration of a concrete test-mode run. -/
theorem C10_persist_precedes_feedback_witness :
    ∃ u v, (run (Agent.mk (("m").data) 1 true) (fun _ _ => []) (fun _ => [])).snd =
      u ++ Event.fileWrite file_name
          (runDraft (Agent.mk (("m").data) 1 true) (fun _ _ => []) (fun _ => []) 0) ::
        Event.consolePrint (iterPre ++ ((Nat.repr (0 + 1)).data) ++ iterMid ++
          evaluate_paper (runDraft (Agent.mk (("m").data) 1 true) (fun _ _ => []) (fun _ => []) 0) 500) :: v :=
  C10_persist_precedes_feedback _ _ _ 0 (by decide)

/- ------------------------------------------------------------------ -/
/- Lemmas about the fenced-block regex model                           -/
/- ------------------------------------------------------------------ -/

theorem bt3_cons : bt3 = '\x60' :: '\x60' :: '\x60' :: [] := by decide

theorem nl3_cons : nl3 = '\n' :: bt3 := by decide

theorem pythonNl_cons : pythonNl = 'p' :: (("ython\n").data) := by decide

theorem openFence_eq : openFence = '\n' :: (bt3 ++ pythonNl) := by decide

theorem closeFence_eq : closeFence = '\n' :: (bt3 ++ ('\n' :: [])) := by decide

theorem beq_bt_nl : (('\x60' : Char) == '\n') = false := by decide

theorem beq_py_nl : (('p' : Char) == '\n') = false := by decide

theorem isPrefList_trans (p q s : List Char) (h1 : isPrefList p q = true)
    (h2 : isPrefList q s = true) : isPrefList p s = true := by
  induction p generalizing q s with
  | nil => rfl
  | cons a ps ih =>
    cases q with
    | nil => simp [isPrefList] at h1
    | cons b qs =>
      cases s with
      | nil => simp [isPrefList] at h2
      | cons c ss =>
        simp only [isPrefList, Bool.and_eq_true, beq_iff_eq] at h1 h2 ⊢
        exact ⟨h1.1.trans h2.1, ih qs ss h1.2 h2.2⟩

theorem isPref_exists (p s : List Char) (h : isPrefList p s = true) :
    ∃ r, s = p ++ r := by
  induction p generalizing s with
  | nil => exact ⟨s, rfl⟩
  | cons a ps ih =>
    cases s with
    | nil => simp [isPrefList] at h
    | cons b ss =>
      simp only [isPrefList, Bool.and_eq_true, beq_iff_eq] at h
      obtain ⟨r, hr⟩ := ih ss h.2
      exact ⟨r, by rw [List.cons_append, ← hr, h.1]⟩

theorem lazyBody_cons (c : Char) (rest : List Char) :
    lazyBody (c :: rest) =
      if c == '\n' && isPrefList bt3 rest then some []
      else (lazyBody rest).map (fun b => c :: b) := rfl

theorem lazyBody_pref : ∀ (s b : List Char), lazyBody s = some b → isPrefList b s = true := by
  intro s
  induction s with
  | nil => intro b h; cases h
  | cons c rest ih =>
    intro b h
    rw [lazyBody_cons] at h
    split_ifs at h with hg
    · cases h; rfl
    · obtain ⟨b', hb', hbc⟩ := Option.map_eq_some'.mp h
      rw [← hbc]
      simp [isPrefList, ih b' hb']

theorem lazyBody_no_nl3 : ∀ (s b : List Char), lazyBody s = some b →
    containsSub b nl3 = false := by
  intro s
  induction s with
  | nil => intro b h; cases h
  | cons c rest ih =>
    intro b h
    rw [lazyBody_cons] at h
    split_ifs at h with hg
    · cases h; decide
    · obtain ⟨b', hb', hbc⟩ := Option.map_eq_some'.mp h
      rw [← hbc]
      have htail := ih b' hb'
      have hpref : isPrefList nl3 (c :: b') = false := by
        cases hp : isPrefList nl3 (c :: b')
        · rfl
        · exfalso
          rw [nl3_cons] at hp
          simp only [isPrefList, Bool.and_eq_true, beq_iff_eq] at hp
          apply hg
          rw [Bool.and_eq_true]
          refine ⟨?_, isPrefList_trans bt3 b' rest hp.2 (lazyBody_pref rest b' hb')⟩
          rw [← hp.1]
          simp
      rw [show containsSub (c :: b') nl3 =
          (isPrefList nl3 (c :: b') || containsSub b' nl3) from rfl, hpref, htail]
      rfl

theorem lazyBody_contains : ∀ (s b : List Char), lazyBody s = some b →
    containsSub s nl3 = true := by
  intro s
  induction s with
  | nil => intro b h; cases h
  | cons c rest ih =>
    intro b h
    rw [lazyBody_cons] at h
    split_ifs at h with hg
    · rw [Bool.and_eq_true] at hg
      refine containsSub_of_pref ?_
      rw [nl3_cons]
      simp only [isPrefList, Bool.and_eq_true, beq_iff_eq]
      exact ⟨(beq_iff_eq.mp hg.1).symm, hg.2⟩
    · obtain ⟨b', hb', _⟩ := Option.map_eq_some'.mp h
      exact containsSub_cons _ _ _ (ih b' hb')

theorem lazyBody_append : ∀ (s b t : List Char), lazyBody s = some b →
    ∃ b2, lazyBody (s ++ t) = some b2 := by
  intro s
  induction s with
  | nil => intro b t h; cases h
  | cons c rest ih =>
    intro b t h
    rw [lazyBody_cons] at h
    rw [List.cons_append, lazyBody_cons]
    by_cases hg2 : (c == '\n' && isPrefList bt3 (rest ++ t)) = true
    · rw [if_pos hg2]; exact ⟨[], rfl⟩
    · rw [if_neg hg2]
      split_ifs at h with hg
      · exfalso
        apply hg2
        rw [Bool.and_eq_true] at hg
        rw [Bool.and_eq_true]
        exact ⟨hg.1, isPrefList_append t hg.2⟩
      · obtain ⟨b', hb', _⟩ := Option.map_eq_some'.mp h
        obtain ⟨b2, hb2⟩ := ih b' t hb'
        exact ⟨c :: b2, by rw [hb2]; rfl⟩

theorem matchFenceAt_py (r b : List Char) (h : lazyBody r = some b) :
    matchFenceAt (bt3 ++ (pythonNl ++ r)) = some b := by
  simp only [matchFenceAt]
  rw [if_pos (isPrefList_self_append bt3 _), List.drop_left,
    if_pos (isPrefList_self_append pythonNl r), List.drop_left]
  exact h

theorem isPref_py_cons_nl (r : List Char) : isPrefList pythonNl ('\n' :: r) = false := by
  rw [pythonNl_cons]
  simp [isPrefList, beq_py_nl]

theorem matchFenceAt_nl (r b : List Char) (h : lazyBody r = some b) :
    matchFenceAt (bt3 ++ (nlOne ++ r)) = some b := by
  simp only [matchFenceAt]
  rw [if_pos (isPrefList_self_append bt3 _), List.drop_left]
  rw [if_neg (by rw [show nlOne ++ r = '\n' :: r from rfl, isPref_py_cons_nl]; simp),
    if_pos (isPrefList_self_append nlOne r), List.drop_left]
  exact h

theorem matchFenceAt_elim (s b : List Char) (h : matchFenceAt s = some b) :
    (∃ r, s = bt3 ++ (pythonNl ++ r) ∧ lazyBody r = some b) ∨
    (∃ r, s = bt3 ++ (nlOne ++ r) ∧ lazyBody r = some b) := by
  simp only [matchFenceAt] at h
  split_ifs at h with h1 h2 h3
  · obtain ⟨r1, hr1⟩ := isPref_exists bt3 s h1
    rw [hr1, List.drop_left] at h h2
    obtain ⟨r2, hr2⟩ := isPref_exists _ _ h2
    rw [hr2, List.drop_left] at h
    exact Or.inl ⟨r2, by rw [hr1, hr2], h⟩
  · obtain ⟨r1, hr1⟩ := isPref_exists bt3 s h1
    rw [hr1, List.drop_left] at h h3
    obtain ⟨r2, hr2⟩ := isPref_exists _ _ h3
    rw [hr2, List.drop_left] at h
    exact Or.inr ⟨r2, by rw [hr1, hr2], h⟩

theorem containsSub_drop (s : List Char) (n : Nat) (p : List Char)
    (h : containsSub (s.drop n) p = true) : containsSub s p = true := by
  have h2 := containsSub_append_left (s.take n) h
  rwa [List.take_append_drop] at h2

theorem matchFenceAt_contains (s b : List Char) (h : matchFenceAt s = some b) :
    containsSub s nl3 = true := by
  rcases matchFenceAt_elim s b h with ⟨r, hs, hr⟩ | ⟨r, hs, hr⟩
  · rw [hs]
    exact containsSub_append_left _ (containsSub_append_left _ (lazyBody_contains r b hr))
  · rw [hs]
    exact containsSub_append_left _ (containsSub_append_left _ (lazyBody_contains r b hr))

theorem matchFenceAt_no_nl3 (s b : List Char) (h : matchFenceAt s = some b) :
    containsSub b nl3 = false := by
  rcases matchFenceAt_elim s b h with ⟨r, _, hr⟩ | ⟨r, _, hr⟩
  · exact lazyBody_no_nl3 r b hr
  · exact lazyBody_no_nl3 r b hr

theorem matchFenceAt_append (s b t : List Char) (h : matchFenceAt s = some b) :
    ∃ b2, matchFenceAt (s ++ t) = some b2 := by
  rcases matchFenceAt_elim s b h with ⟨r, hs, hr⟩ | ⟨r, hs, hr⟩
  · obtain ⟨b2, hb2⟩ := lazyBody_append r b t hr
    refine ⟨b2, ?_⟩
    rw [hs, show (bt3 ++ (pythonNl ++ r)) ++ t = bt3 ++ (pythonNl ++ (r ++ t)) by simp]
    exact matchFenceAt_py _ _ hb2
  · obtain ⟨b2, hb2⟩ := lazyBody_append r b t hr
    refine ⟨b2, ?_⟩
    rw [hs, show (bt3 ++ (nlOne ++ r)) ++ t = bt3 ++ (nlOne ++ (r ++ t)) by simp]
    exact matchFenceAt_nl _ _ hb2

theorem searchFence_cons_eq (c : Char) (rest : List Char) :
    searchFence (c :: rest) =
      match matchFenceAt (c :: rest) with
      | some b => some b
      | none => searchFence rest := rfl

theorem searchFence_of_matchFenceAt (s b : List Char) (h : matchFenceAt s = some b) :
    searchFence s = some b := by
  cases s with
  | nil => rw [show matchFenceAt [] = none from by decide] at h; cases h
  | cons c rest => simp only [searchFence_cons_eq, h]

theorem searchFence_some_contains : ∀ (s b : List Char), searchFence s = some b →
    containsSub s nl3 = true := by
  intro s
  induction s with
  | nil => intro b h; cases h
  | cons c rest ih =>
    intro b h
    cases hm : matchFenceAt (c :: rest) with
    | some b2 => exact matchFenceAt_contains _ _ hm
    | none =>
      rw [searchFence_cons_eq] at h
      simp only [hm] at h
      exact containsSub_cons _ _ _ (ih b h)

theorem searchFence_some_no_nl3 : ∀ (s b : List Char), searchFence s = some b →
    containsSub b nl3 = false := by
  intro s
  induction s with
  | nil => intro b h; cases h
  | cons c rest ih =>
    intro b h
    rw [searchFence_cons_eq] at h
    cases hm : matchFenceAt (c :: rest) with
    | some b2 =>
      simp only [hm] at h
      cases h
      exact matchFenceAt_no_nl3 _ _ hm
    | none =>
      simp only [hm] at h
      exact ih b h

theorem searchFence_none_of_not_contains (s : List Char)
    (h : containsSub s nl3 = false) : searchFence s = none := by
  cases hs : searchFence s with
  | none => rfl
  | some b =>
    rw [searchFence_some_contains s b hs] at h
    simp at h

theorem searchFence_append (s t : List Char) : ∀ b, searchFence s = some b →
    ∃ b2, searchFence (s ++ t) = some b2 := by
  induction s with
  | nil => intro b h; cases h
  | cons c rest ih =>
    intro b h
    rw [List.cons_append]
    cases hm : matchFenceAt (c :: (rest ++ t)) with
    | some b2 => exact ⟨b2, by simp only [searchFence_cons_eq, hm]⟩
    | none =>
      cases hm0 : matchFenceAt (c :: rest) with
      | some b0 =>
        obtain ⟨b2, hb2⟩ := matchFenceAt_append _ _ t hm0
        rw [List.cons_append] at hb2
        rw [hb2] at hm
        cases hm
      | none =>
        rw [searchFence_cons_eq] at h
        simp only [hm0] at h
        obtain ⟨b2, hb2⟩ := ih b h
        refine ⟨b2, ?_⟩
        rw [searchFence_cons_eq]
        simp only [hm]
        exact hb2

theorem searchFence_prepend (a s : List Char) : ∀ b, searchFence s = some b →
    ∃ b2, searchFence (a ++ s) = some b2 := by
  induction a with
  | nil => intro b h; exact ⟨b, h⟩
  | cons c a' ih =>
    intro b h
    obtain ⟨b2, hb2⟩ := ih b h
    rw [List.cons_append]
    cases hm : matchFenceAt (c :: (a' ++ s)) with
    | some b3 => exact ⟨b3, by simp only [searchFence_cons_eq, hm]⟩
    | none =>
      refine ⟨b2, ?_⟩
      rw [searchFence_cons_eq]
      simp only [hm]
      exact hb2

theorem containsSub_pyStrip (x p : List Char) (h : containsSub (pyStrip x) p = true) :
    containsSub x p = true := by
  obtain ⟨u, v, hx⟩ := pyStrip_decomp x
  rw [hx]
  exact containsSub_append_right v (containsSub_append_left u h)

theorem searchFence_pyStrip_none (x : List Char) (h : searchFence x = none) :
    searchFence (pyStrip x) = none := by
  cases hs : searchFence (pyStrip x) with
  | none => rfl
  | some b =>
    exfalso
    obtain ⟨u, v, hx⟩ := pyStrip_decomp x
    obtain ⟨b2, hb2⟩ := searchFence_append (pyStrip x) v b hs
    obtain ⟨b3, hb3⟩ := searchFence_prepend u (pyStrip x ++ v) b2 hb2
    rw [show u ++ (pyStrip x ++ v) = u ++ pyStrip x ++ v by simp, ← hx, h] at hb3
    cases hb3

theorem isPref_bt3_through (q t : List Char)
    (h : isPrefList bt3 (q ++ '\n' :: t) = true) : isPrefList bt3 q = true := by
  rw [bt3_cons] at h ⊢
  cases q with
  | nil => simp [isPrefList, beq_bt_nl] at h
  | cons a q1 =>
    cases q1 with
    | nil => simp [isPrefList, beq_bt_nl] at h
    | cons b q2 =>
      cases q2 with
      | nil => simp [isPrefList, beq_bt_nl] at h
      | cons c q3 =>
        simp only [List.cons_append, isPrefList, Bool.and_eq_true, Bool.and_true] at h ⊢
        exact ⟨h.1, h.2.1, h.2.2⟩

theorem searchFence_skip : ∀ (pre t : List Char), containsSub pre bt3 = false →
    searchFence (pre ++ '\n' :: t) = searchFence ('\n' :: t) := by
  intro pre
  induction pre with
  | nil => intro t h; rfl
  | cons c pre' ih =>
    intro t h
    have hor1 : isPrefList bt3 (c :: pre') = false := by
      cases hp : isPrefList bt3 (c :: pre')
      · rfl
      · have hc := containsSub_of_pref hp
        rw [h] at hc
        simp at hc
    have hor2 : containsSub pre' bt3 = false := by
      cases hp : containsSub pre' bt3
      · rfl
      · have hc := containsSub_cons c pre' bt3 hp
        rw [h] at hc
        simp at hc
    have hnp : isPrefList bt3 (c :: (pre' ++ '\n' :: t)) = false := by
      cases hb : isPrefList bt3 (c :: (pre' ++ '\n' :: t))
      · rfl
      · exfalso
        rw [show c :: (pre' ++ '\n' :: t) = (c :: pre') ++ '\n' :: t from rfl] at hb
        have h2 := isPref_bt3_through (c :: pre') t hb
        rw [hor1] at h2
        simp at h2
    have hmf : matchFenceAt (c :: (pre' ++ '\n' :: t)) = none := by
      simp [matchFenceAt, hnp]
    rw [List.cons_append, searchFence_cons_eq]
    simp only [hmf]
    exact ih t hor2

theorem matchFenceAt_cons_nl_none (t : List Char) : matchFenceAt ('\n' :: t) = none := by
  have hp : isPrefList bt3 ('\n' :: t) = false := by
    rw [bt3_cons]
    simp [isPrefList, beq_bt_nl]
  simp [matchFenceAt, hp]

theorem searchFence_cons_nl (t : List Char) : searchFence ('\n' :: t) = searchFence t := by
  rw [searchFence_cons_eq]
  simp only [matchFenceAt_cons_nl_none]

theorem lazyBody_exact : ∀ (B t : List Char), containsSub B nl3 = false →
    lazyBody (B ++ '\n' :: (bt3 ++ t)) = some B := by
  intro B
  induction B with
  | nil =>
    intro t h
    rw [List.nil_append, lazyBody_cons]
    have hg : (('\n' == '\n') && isPrefList bt3 (bt3 ++ t)) = true := by
      rw [Bool.and_eq_true]
      exact ⟨by decide, isPrefList_self_append bt3 t⟩
    rw [if_pos hg]
  | cons c B' ih =>
    intro t h
    rw [List.cons_append, lazyBody_cons]
    have hB' : containsSub B' nl3 = false := by
      cases hb : containsSub B' nl3
      · rfl
      · have hc := containsSub_cons c B' nl3 hb
        rw [h] at hc
        simp at hc
    have hg : (c == '\n' && isPrefList bt3 (B' ++ '\n' :: (bt3 ++ t))) = false := by
      cases hb : (c == '\n' && isPrefList bt3 (B' ++ '\n' :: (bt3 ++ t)))
      · rfl
      · exfalso
        rw [Bool.and_eq_true] at hb
        have h3 : isPrefList bt3 B' = true := isPref_bt3_through B' _ hb.2
        have h4 : isPrefList nl3 (c :: B') = true := by
          rw [nl3_cons]
          simp only [isPrefList, Bool.and_eq_true, beq_iff_eq]
          exact ⟨(beq_iff_eq.mp hb.1).symm, h3⟩
        have h5 := containsSub_of_pref h4
        rw [h] at h5
        simp at h5
    rw [if_neg (by simp [hg]), ih t hB']
    rfl

/- ------------------------------------------------------------------ -/
/- Claim C7: extract_text round-trips and is idempotent                -/
/- ------------------------------------------------------------------ -/

theorem extract_single_fence (pre BODY post : List Char)
    (h1 : containsSub pre bt3 = false) (h2 : containsSub BODY nl3 = false) :
    extract_text (pre ++ openFence ++ BODY ++ closeFence ++ post) = pyStrip BODY := by
  have hx : pre ++ openFence ++ BODY ++ closeFence ++ post
      = pre ++ '\n' :: (bt3 ++ (pythonNl ++ (BODY ++ '\n' :: (bt3 ++ ('\n' :: post))))) := by
    rw [openFence_eq, closeFence_eq]
    simp
  have hlb : lazyBody (BODY ++ '\n' :: (bt3 ++ ('\n' :: post))) = some BODY :=
    lazyBody_exact BODY _ h2
  have hsf : searchFence (pre ++ openFence ++ BODY ++ closeFence ++ post) = some BODY := by
    rw [hx, searchFence_skip pre _ h1, searchFence_cons_nl]
    exact searchFence_of_matchFenceAt _ _ (matchFenceAt_py _ _ hlb)
  simp only [extract_text, hsf]

theorem extract_no_fence (x : List Char) (h : searchFence x = none) :
    extract_text x = pyStrip x := by
  simp [extract_text, h]

theorem extract_idem (x : List Char) : extract_text (extract_text x) = extract_text x := by
  cases hs : searchFence x with
  | none =>
    have h1 : extract_text x = pyStrip x := by simp [extract_text, hs]
    have h2 : searchFence (pyStrip x) = none := searchFence_pyStrip_none x hs
    rw [h1]
    simp [extract_text, h2, pyStrip_idem]
  | some b =>
    have h1 : extract_text x = pyStrip b := by simp [extract_text, hs]
    have hb : containsSub b nl3 = false := searchFence_some_no_nl3 x b hs
    have hpb : containsSub (pyStrip b) nl3 = false := by
      cases hc : containsSub (pyStrip b) nl3
      · rfl
      · have h3 := containsSub_pyStrip b nl3 hc
        rw [hb] at h3
        simp at h3
    have h2 : searchFence (pyStrip b) = none := searchFence_none_of_not_contains _ hpb
    rw [h1]
    simp [extract_text, h2, pyStrip_idem]

/-- Claim C7: `extract_text` round-trips: on an input that is exactly
`pre ++ "\n```python\nBODY\n```\n" ++ post` holding exactly one fenced block
(no stray fence opener in `pre`, no closing fence inside `BODY`), it returns
`BODY` stripped of surrounding whitespace; on an input with no fence it
returns the stripped input; and it is idempotent on every string. -/
theorem C7_extract_text_roundtrip :
    (∀ pre BODY post, containsSub pre bt3 = false → containsSub BODY nl3 = false →
      extract_text (pre ++ openFence ++ BODY ++ closeFence ++ post) = pyStrip BODY) ∧
    (∀ x, searchFence x = none → extract_text x = pyStrip x) ∧
    (∀ x, extract_text (extract_text x) = extract_text x) :=
  ⟨extract_single_fence, extract_no_fence, extract_idem⟩

/-- Claim C7, witness: the fenced input from the source's own unit test,
and idempotence on a concrete padded string. -/
theorem C7_extract_text_roundtrip_witness :
    extract_text ((("Some text").data) ++ openFence ++ (("Title: Test Paper\nAbstract: Test Abstract").data) ++ closeFence ++ [])
        = pyStrip (("Title: Test Paper\nAbstract: Test Abstract").data) ∧
    extract_text (extract_text (("  hi  ").data)) = extract_text (("  hi  ").data) :=
  ⟨C7_extract_text_roundtrip.1 _ _ _ (by decide) (by decide),
   C7_extract_text_roundtrip.2.2 _⟩
